import Mathlib

/-!
Shallow embedding of the multi-provider streaming fan-out pipeline of
`backend/app/api/prompts.py` (routes `create_prompt` / `generate_llm_responses` /
`process_provider`).

The generator `generate_llm_responses` is embedded as a pure function from an
environment (the credential store together with the decryption outcome, and the
behaviour of each provider's upstream adapter stream) to the ordered trace of
observable effects it produces: the wire events yielded to the SSE transport and
the `LLMResponse` rows committed to the database, in program order.

Machine-level aspects not modelled: wall-clock time is modelled separately for
the timing claim (`TimedRun` below), and the generator's top-level
`except Exception` handler has no trigger in the embedding (no modelled
operation raises outside a provider's adapter), matching the hypotheses of the
claims, which all assume no unexpected top-level exception.
-/

namespace LLMAgg

/-- Outcome of resolving one provider's credential for the current user:
the `db.query(APIKey)...first()` lookup (no row → absent) followed by
`decrypt_api_key` (which may raise → decrypt failure) in
`generate_llm_responses` lines 64-99. -/
inductive CredResult where
  | absent
  | decryptFailed
  | ok (key : String)
deriving DecidableEq

/-- Behaviour of one provider's upstream adapter stream
(`stream_openai_response` / `stream_anthropic_response` /
`stream_google_response`): it yields a finite list of text fragments and then
either finishes normally or raises with a message. -/
inductive StreamOutcome where
  | success (frags : List String)
  | failure (frags : List String) (msg : String)
deriving DecidableEq

/-- The external world one fan-out invocation runs against: credential
resolution per provider name, and the adapter stream behaviour per provider
name. Both are deterministic for the duration of one invocation. -/
structure Env where
  cred : String → CredResult
  run : String → StreamOutcome

/-- Wire-level stream events (the JSON payloads yielded by the generator):
`chunk` (`type: "chunk"`), `responseComplete` (`type: "response", done: true`),
`providerError` (`type: "error"` with a provider tag), and `streamComplete`
(`type: "complete"` carrying the prompt id). -/
inductive Event where
  | chunk (provider text : String)
  | responseComplete (provider text : String)
  | providerError (provider msg : String)
  | streamComplete (promptId : String)
deriving DecidableEq

/-- An `LLMResponse` row as committed by `process_provider` lines 151-162
(the fields the claims are about; id/prompt-id/timing are not included here,
timing is treated in the timed model below). -/
structure ResponseRecord where
  provider : String
  model_used : String
  response_text : String
deriving DecidableEq

/-- One observable effect of the generator, in program order: either an event
yielded to the transport or a record committed to the database. -/
inductive Item where
  | ev (e : Event)
  | persist (r : ResponseRecord)
deriving DecidableEq

/-- Error message for a provider with no stored API key row
(prompts.py line 78). -/
def msgNoKey (provider : String) : String :=
  "No API key configured for " ++ provider ++ ". Please add it in Settings."

/-- Error message for a provider whose stored key fails to decrypt
(prompts.py line 93). -/
def msgDecryptFail (provider : String) : String :=
  "Failed to decrypt API key for " ++ provider

/-- Items produced for one occurrence of a provider in the credential
resolution loop (prompts.py lines 66-99): an error event if the key row is
missing or decryption raises, nothing otherwise. -/
def credItems (env : Env) (provider : String) : List Item :=
  match env.cred provider with
  | .absent => [.ev (.providerError provider (msgNoKey provider))]
  | .decryptFailed => [.ev (.providerError provider (msgDecryptFail provider))]
  | .ok _ => []

/-- Whether `provider in api_keys` holds after the credential loop: true
exactly when lookup and decryption both succeeded. -/
def hasKey (env : Env) (provider : String) : Bool :=
  match env.cred provider with
  | .ok _ => true
  | _ => false

/-- `response_text` accumulation: `response_text += chunk` over the fragments
in order, starting from `""`. -/
def accumText (frags : List String) : String :=
  frags.foldl (fun acc c => acc ++ c) ""

/-- The chunk items yielded while iterating one adapter stream: one `chunk`
event per fragment, in arrival order (prompts.py lines 114-149). -/
def chunkItems (provider : String) (frags : List String) : List Item :=
  frags.map (fun c => .ev (.chunk provider c))

/-- The provider names the `if provider == "openai" / elif "anthropic" /
elif "google"` dispatch in `process_provider` recognises; any other name
matches none of the branches. -/
def knownProviders : List String := ["openai", "anthropic", "google"]

/-- Embedding of `process_provider` (prompts.py lines 102-186) for one
provider occurrence: early return when the provider is not in `api_keys`;
otherwise stream the matching adapter (abstracted as `env.run`), yielding a
chunk event per fragment; on normal completion commit the `LLMResponse` row
and yield the done event; if the adapter raises, yield one error event and
commit nothing. A name outside the three-way dispatch streams nothing and
falls through to the commit with the empty accumulated text. -/
def process_provider (env : Env) (provider : String) : List Item :=
  if hasKey env provider = false then []
  else if provider ∈ knownProviders then
    match env.run provider with
    | .success frags =>
        chunkItems provider frags
          ++ [.persist ⟨provider, provider ++ "-model", accumText frags⟩,
              .ev (.responseComplete provider (accumText frags))]
    | .failure frags msg =>
        chunkItems provider frags ++ [.ev (.providerError provider msg)]
  else
    [.persist ⟨provider, provider ++ "-model", ""⟩,
     .ev (.responseComplete provider "")]

/-- The credential resolution phase over the whole request list, in order
(prompts.py lines 66-99). -/
def credPhase (env : Env) (providers : List String) : List Item :=
  providers.flatMap (credItems env)

/-- The streaming phase (prompts.py lines 190-193): each occurrence, in list
order, is processed when it is in `api_keys`. -/
def streamItems (env : Env) (provider : String) : List Item :=
  if hasKey env provider then process_provider env provider else []

/-- All items of the streaming phase over the request list. -/
def streamPhase (env : Env) (providers : List String) : List Item :=
  providers.flatMap (streamItems env)

/-- Embedding of the generator body `generate_llm_responses`
(prompts.py lines 58-203), on the path with no unexpected top-level
exception: the credential phase, then the streaming phase, then the single
final completion event carrying the prompt id. -/
def generate_llm_responses (env : Env) (promptId : String)
    (providers : List String) : List Item :=
  credPhase env providers ++ streamPhase env providers
    ++ [.ev (.streamComplete promptId)]

/-- Result of the `create_prompt` endpoint as observable to the client and the
database: HTTP status, whether a `Prompt` row was committed, and the streamed
items. -/
structure CreateOutcome where
  status : Nat
  promptCreated : Bool
  items : List Item
deriving DecidableEq

/-- Embedding of `create_prompt` (prompts.py lines 26-216) after JSON
parsing: `prompt_data.get("prompt")` is an optional string (Python `None` and
`""` are both falsy, so both are rejected), `providers` defaults to `[]` and
an empty list is rejected; only then is the `Prompt` row committed and the
generator returned. -/
def create_prompt (env : Env) (promptText : Option String)
    (providers : List String) (promptId : String) : CreateOutcome :=
  match promptText with
  | none => ⟨400, false, []⟩
  | some t =>
    if t = "" then ⟨400, false, []⟩
    else if providers = [] then ⟨400, false, []⟩
    else ⟨200, true, generate_llm_responses env promptId providers⟩

/-! Observation functions over traces. -/

/-- The wire events of a trace, in order. -/
def events (items : List Item) : List Event :=
  items.filterMap (fun i => match i with | .ev e => some e | .persist _ => none)

/-- The committed records of a trace, in order. -/
def records (items : List Item) : List ResponseRecord :=
  items.filterMap (fun i => match i with | .persist r => some r | .ev _ => none)

/-- The provider tag an event carries (`streamComplete` carries none). -/
def eventProvider : Event → Option String
  | .chunk p _ => some p
  | .responseComplete p _ => some p
  | .providerError p _ => some p
  | .streamComplete _ => none

def isChunk : Event → Bool
  | .chunk _ _ => true
  | _ => false

def isRespComplete : Event → Bool
  | .responseComplete _ _ => true
  | _ => false

def isProviderError : Event → Bool
  | .providerError _ _ => true
  | _ => false

/-- A terminal event: a per-provider completion or error. -/
def isTerminal (e : Event) : Bool :=
  isRespComplete e || isProviderError e

def isStreamComplete : Event → Bool
  | .streamComplete _ => true
  | _ => false

/-- Restriction of a Boolean event class to events tagged with provider `p`. -/
def forProvider (p : String) (b : Event → Bool) (e : Event) : Bool :=
  b e && (eventProvider e == some p)

/-- Number of events of class `b` tagged with provider `p` in a trace. -/
def countFor (p : String) (b : Event → Bool) (items : List Item) : Nat :=
  (events items).countP (forProvider p b)

/-- The events of a trace that are tagged with provider `p`, in order. -/
def eventsFor (p : String) (items : List Item) : List Event :=
  (events items).filter (fun e => eventProvider e == some p)

/-- The records of a trace committed for provider `p`, in order. -/
def recordsFor (p : String) (items : List Item) : List ResponseRecord :=
  (records items).filter (fun r => r.provider == p)

/-- Whether the adapter phase of `process_provider` finishes without raising
for provider `p`: a known provider must have a successful stream; a name
outside the dispatch streams nothing, so nothing can raise. -/
def adapterOk (env : Env) (p : String) : Bool :=
  if p ∈ knownProviders then
    match env.run p with
    | .success _ => true
    | .failure _ _ => false
  else true

/-! Basic trace lemmas. -/

lemma events_append (a b : List Item) : events (a ++ b) = events a ++ events b := by
  simp [events, List.filterMap_append]

lemma records_append (a b : List Item) : records (a ++ b) = records a ++ records b := by
  simp [records, List.filterMap_append]

lemma events_chunkItems (p : String) (frags : List String) :
    events (chunkItems p frags) = frags.map (Event.chunk p) := by
  induction frags with
  | nil => rfl
  | cons c cs ih => simpa [chunkItems, events] using ih

lemma records_chunkItems (p : String) (frags : List String) :
    records (chunkItems p frags) = [] := by
  induction frags with
  | nil => rfl
  | cons c cs ih => simp [chunkItems, records] at ih ⊢

lemma countP_map_chunk (q : Event → Bool) (p : String) (frags : List String)
    (h : ∀ c, q (Event.chunk p c) = false) :
    (frags.map (Event.chunk p)).countP q = 0 := by
  induction frags with
  | nil => rfl
  | cons c cs ih => simp [List.countP_cons, h, ih]

/-- Shape of `process_provider` when the credential resolved and the adapter
stream finishes normally. -/
lemma process_provider_success (env : Env) (p : String) (frags : List String)
    (hk : hasKey env p = true) (hm : p ∈ knownProviders)
    (hr : env.run p = .success frags) :
    process_provider env p
      = chunkItems p frags
        ++ [.persist ⟨p, p ++ "-model", accumText frags⟩,
            .ev (.responseComplete p (accumText frags))] := by
  simp [process_provider, hk, hm, hr]

/-- Shape of `process_provider` when the credential resolved and the adapter
raises after `frags`. -/
lemma process_provider_failure (env : Env) (p : String) (frags : List String)
    (msg : String) (hk : hasKey env p = true) (hm : p ∈ knownProviders)
    (hr : env.run p = .failure frags msg) :
    process_provider env p = chunkItems p frags ++ [.ev (.providerError p msg)] := by
  simp [process_provider, hk, hm, hr]

/-- Shape of `process_provider` for a name outside the three-way dispatch. -/
lemma process_provider_unknown (env : Env) (p : String)
    (hk : hasKey env p = true) (hm : p ∉ knownProviders) :
    process_provider env p
      = [.persist ⟨p, p ++ "-model", ""⟩, .ev (.responseComplete p "")] := by
  simp [process_provider, hk, hm]

lemma streamItems_eq (env : Env) (p : String) (hk : hasKey env p = true) :
    streamItems env p = process_provider env p := by
  simp [streamItems, hk]

lemma streamItems_nokey (env : Env) (p : String) (hk : hasKey env p = false) :
    streamItems env p = [] := by
  simp [streamItems, hk]

lemma credItems_ok (env : Env) (p : String) (hk : hasKey env p = true) :
    credItems env p = [] := by
  unfold credItems
  unfold hasKey at hk
  cases h : env.cred p <;> simp [h] at hk ⊢

lemma process_provider_nokey (env : Env) (p : String)
    (hk : hasKey env p = false) : process_provider env p = [] := by
  simp [process_provider, hk]

/-- Every event of `process_provider env q` carries the tag `q`. -/
lemma eventProvider_process (env : Env) (q : String) :
    ∀ e ∈ events (process_provider env q), eventProvider e = some q := by
  intro e he
  by_cases hk : hasKey env q = true
  · by_cases hm : q ∈ knownProviders
    · cases hr : env.run q with
      | success frags =>
        rw [process_provider_success env q frags hk hm hr, events_append,
          events_chunkItems] at he
        rcases List.mem_append.1 he with h | h
        · rcases List.mem_map.1 h with ⟨c, _, rfl⟩; rfl
        · simp [events] at h; subst h; rfl
      | failure frags msg =>
        rw [process_provider_failure env q frags msg hk hm hr, events_append,
          events_chunkItems] at he
        rcases List.mem_append.1 he with h | h
        · rcases List.mem_map.1 h with ⟨c, _, rfl⟩; rfl
        · simp [events] at h; subst h; rfl
    · rw [process_provider_unknown env q hk hm] at he
      simp [events] at he; subst he; rfl
  · rw [process_provider_nokey env q (by simpa using hk), events] at he
    simp at he

/-- Every trace item of `streamItems env q` concerns provider `q` only:
events are tagged `q`. -/
lemma eventProvider_streamItems (env : Env) (q : String) :
    ∀ e ∈ events (streamItems env q), eventProvider e = some q := by
  intro e he
  unfold streamItems at he
  by_cases hk : hasKey env q
  · exact eventProvider_process env q e (by simpa [hk] using he)
  · simp [hk, events] at he

/-- Every record committed by `streamItems env q` has provider `q`. -/
lemma record_provider_streamItems (env : Env) (q : String) :
    ∀ r ∈ records (streamItems env q), r.provider = q := by
  intro r hr
  unfold streamItems process_provider at hr
  by_cases hk : hasKey env q
  · simp only [hk, if_true] at hr
    simp only [hk, Bool.true_eq_false, if_false] at hr
    by_cases hm : q ∈ knownProviders
    · simp only [hm, if_true] at hr
      cases hs : env.run q <;> rw [hs] at hr <;>
        rw [records_append, records_chunkItems] at hr <;> simp [records] at hr
      · rw [hr]
    · simp only [hm, if_false] at hr
      simp [records] at hr; rw [hr]
  · simp [hk, records] at hr

/-- Every event of the credential phase items for one occurrence is a
provider-error tagged with that occurrence's name. -/
lemma events_credItems_cases (env : Env) (q : String) :
    ∀ e ∈ events (credItems env q),
      e = .providerError q (msgNoKey q) ∨ e = .providerError q (msgDecryptFail q) := by
  intro e he
  unfold credItems at he
  cases h : env.cred q <;> rw [h] at he <;> simp [events] at he
  · exact Or.inl he
  · exact Or.inr he

lemma events_flatMap (f : String → List Item) (l : List String) :
    events (l.flatMap f) = l.flatMap (fun a => events (f a)) := by
  induction l with
  | nil => rfl
  | cons a as ih => rw [List.flatMap_cons, List.flatMap_cons, events_append, ih]

lemma records_flatMap (f : String → List Item) (l : List String) :
    records (l.flatMap f) = l.flatMap (fun a => records (f a)) := by
  induction l with
  | nil => rfl
  | cons a as ih => rw [List.flatMap_cons, List.flatMap_cons, records_append, ih]

lemma countP_flatMap {α β : Type} (b : β → Bool) (f : α → List β) (l : List α) :
    (l.flatMap f).countP b = (l.map (fun a => (f a).countP b)).sum := by
  induction l with
  | nil => rfl
  | cons a as ih => rw [List.flatMap_cons, List.countP_append, ih]; simp

lemma sum_map_pair_one (l : List String) (f g : String → Nat)
    (h : ∀ a, f a + g a = 1) :
    (l.map f).sum + (l.map g).sum = l.length := by
  induction l with
  | nil => rfl
  | cons a as ih =>
    simp only [List.map_cons, List.sum_cons, List.length_cons]
    have := h a
    omega

/-- One occurrence contributes exactly one terminal event between its
credential-phase items and its streaming-phase items: the credential phase
yields the terminal error for a missing/undecryptable key, the streaming
phase yields the terminal completion or error otherwise. -/
lemma terminal_one_per_occurrence (env : Env) (q : String) :
    (events (credItems env q)).countP isTerminal
      + (events (streamItems env q)).countP isTerminal = 1 := by
  by_cases hk : hasKey env q = true
  · rw [credItems_ok env q hk, streamItems_eq env q hk]
    by_cases hm : q ∈ knownProviders
    · cases hr : env.run q with
      | success frags =>
        rw [process_provider_success env q frags hk hm hr, events_append,
          events_chunkItems, List.countP_append,
          countP_map_chunk _ _ _ (fun c => rfl)]
        simp [events, isTerminal, isRespComplete, List.countP_cons]
      | failure frags msg =>
        rw [process_provider_failure env q frags msg hk hm hr, events_append,
          events_chunkItems, List.countP_append,
          countP_map_chunk _ _ _ (fun c => rfl)]
        simp [events, isTerminal, isProviderError, List.countP_cons]
    · rw [process_provider_unknown env q hk hm]
      simp [events, isTerminal, isRespComplete, List.countP_cons]
  · have hk' : hasKey env q = false := by simpa using hk
    rw [streamItems_nokey env q hk']
    unfold credItems
    unfold hasKey at hk'
    cases h : env.cred q <;> rw [h] at hk' <;>
      simp [events, isTerminal, isProviderError, List.countP_cons] at hk' ⊢

lemma terminal_count_body (env : Env) (providers : List String) :
    (events (credPhase env providers ++ streamPhase env providers)).countP isTerminal
      = providers.length := by
  rw [events_append, List.countP_append, credPhase, streamPhase,
    events_flatMap, events_flatMap, countP_flatMap, countP_flatMap]
  exact sum_map_pair_one providers _ _ (terminal_one_per_occurrence env)

lemma streamComplete_count_body (env : Env) (providers : List String) :
    (events (credPhase env providers ++ streamPhase env providers)).countP
      isStreamComplete = 0 := by
  rw [List.countP_eq_zero]
  intro e he
  rw [events_append] at he
  rcases List.mem_append.1 he with h | h
  · rw [credPhase, events_flatMap] at h
    rcases List.mem_flatMap.1 h with ⟨a, _, ha⟩
    rcases events_credItems_cases env a e ha with rfl | rfl <;> simp [isStreamComplete]
  · rw [streamPhase, events_flatMap] at h
    rcases List.mem_flatMap.1 h with ⟨a, _, ha⟩
    have htag := eventProvider_streamItems env a e ha
    cases e with
    | chunk p t => simp [isStreamComplete]
    | responseComplete p t => simp [isStreamComplete]
    | providerError p m => simp [isStreamComplete]
    | streamComplete pid => simp [eventProvider] at htag

/-- C1: for every fan-out invocation with N requested providers in which the
generator body raises no unexpected top-level exception (the embedded path),
the trace decomposes as a body followed by the single stream-complete event
carrying the prompt id; the body contains exactly N terminal events
(response-complete or provider-error, one per requested provider occurrence)
and no stream-complete event, and the whole trace contains the
stream-complete event exactly once — as the last item. -/
theorem c1_terminal_events_and_single_completion (env : Env) (promptId : String)
    (providers : List String) :
    generate_llm_responses env promptId providers
      = (credPhase env providers ++ streamPhase env providers)
        ++ [Item.ev (Event.streamComplete promptId)]
    ∧ (events (credPhase env providers ++ streamPhase env providers)).countP
        isTerminal = providers.length
    ∧ (events (credPhase env providers ++ streamPhase env providers)).countP
        isStreamComplete = 0
    ∧ (events (generate_llm_responses env promptId providers)).countP
        isStreamComplete = 1 := by
  refine ⟨by simp [generate_llm_responses], terminal_count_body env providers,
    streamComplete_count_body env providers, ?_⟩
  have hbody := streamComplete_count_body env providers
  rw [events_append, List.countP_append] at hbody
  have h2 : (events (generate_llm_responses env promptId providers)).countP
      isStreamComplete
      = (events (credPhase env providers)).countP isStreamComplete
        + ((events (streamPhase env providers)).countP isStreamComplete + 1) := by
    rw [generate_llm_responses, events_append, events_append, List.countP_append,
      List.countP_append]
    simp [events, isStreamComplete, List.countP_cons]
    omega
  rw [h2]
  omega

/-- C4: for a provider whose adapter stream completes without error after
producing fragments F1..Fk, the chunk events carry F1..Fk in the order
received, the response-complete event's text is the in-order concatenation of
the fragments, and the committed `LLMResponse` row's `response_text` is that
same concatenation. -/
theorem c4_success_concatenates_fragments (env : Env) (p : String)
    (frags : List String) (hm : p ∈ knownProviders) (hk : hasKey env p = true)
    (hr : env.run p = .success frags) :
    events (process_provider env p)
      = frags.map (Event.chunk p) ++ [Event.responseComplete p (accumText frags)]
    ∧ records (process_provider env p)
      = [⟨p, p ++ "-model", accumText frags⟩] := by
  rw [process_provider_success env p frags hk hm hr]
  constructor
  · rw [events_append, events_chunkItems]; simp [events]
  · rw [records_append, records_chunkItems]; simp [records]

/-- C5: a provider whose adapter raises after producing fragments F1..Fj
emits those j chunk events in order followed by exactly one provider-error
event carrying the failure's message, commits no `LLMResponse` row, and —
because the streaming loop processes the request list element-wise — the
occurrences after it still contribute their streaming items unchanged. -/
theorem c5_failure_is_isolated (env : Env) (pid p : String)
    (frags : List String) (msg : String) (l1 l2 : List String)
    (hm : p ∈ knownProviders) (hk : hasKey env p = true)
    (hr : env.run p = .failure frags msg) :
    events (process_provider env p)
      = frags.map (Event.chunk p) ++ [Event.providerError p msg]
    ∧ records (process_provider env p) = []
    ∧ generate_llm_responses env pid (l1 ++ p :: l2)
        = credPhase env (l1 ++ p :: l2)
          ++ (streamPhase env l1 ++ process_provider env p ++ streamPhase env l2)
          ++ [Item.ev (Event.streamComplete pid)] := by
  refine ⟨?_, ?_, ?_⟩
  · rw [process_provider_failure env p frags msg hk hm hr, events_append,
      events_chunkItems]
    simp [events]
  · rw [process_provider_failure env p frags msg hk hm hr, records_append,
      records_chunkItems]
    simp [records]
  · simp [generate_llm_responses, streamPhase, List.flatMap_append,
      List.flatMap_cons, streamItems_eq env p hk]

/-! Per-provider projections of the trace. -/

lemma eventsFor_append (p : String) (a b : List Item) :
    eventsFor p (a ++ b) = eventsFor p a ++ eventsFor p b := by
  simp [eventsFor, events_append, List.filter_append]

lemma recordsFor_append (p : String) (a b : List Item) :
    recordsFor p (a ++ b) = recordsFor p a ++ recordsFor p b := by
  simp [recordsFor, records_append, List.filter_append]

lemma eventsFor_flatMap (p : String) (f : String → List Item) (l : List String) :
    eventsFor p (l.flatMap f) = l.flatMap (fun a => eventsFor p (f a)) := by
  induction l with
  | nil => rfl
  | cons a as ih => rw [List.flatMap_cons, List.flatMap_cons, eventsFor_append, ih]

lemma recordsFor_flatMap (p : String) (f : String → List Item) (l : List String) :
    recordsFor p (l.flatMap f) = l.flatMap (fun a => recordsFor p (f a)) := by
  induction l with
  | nil => rfl
  | cons a as ih => rw [List.flatMap_cons, List.flatMap_cons, recordsFor_append, ih]

/-- A flatMap whose per-element lists are a fixed singleton at `p` and empty
elsewhere is a replicate of the occurrence count. -/
lemma flatMap_single {α : Type} (l : List String) (p : String) (x : α)
    (f : String → List α) (hp : f p = [x]) (hne : ∀ q, q ≠ p → f q = []) :
    l.flatMap f = List.replicate (l.count p) x := by
  induction l with
  | nil => rfl
  | cons a as ih =>
    rw [List.flatMap_cons, ih, List.count_cons]
    by_cases h : a = p
    · subst h; simp [hp, List.replicate_succ]
    · simp [hne a h, h, Ne.symm h]

/-- A sum over per-element counts that are `k` at `p` and `0` elsewhere. -/
lemma sum_map_ite_count (l : List String) (p : String) (k : Nat)
    (f : String → Nat) (hp : f p = k) (hne : ∀ q, q ≠ p → f q = 0) :
    (l.map f).sum = l.count p * k := by
  induction l with
  | nil => simp
  | cons a as ih =>
    rw [List.map_cons, List.sum_cons, ih, List.count_cons]
    by_cases h : a = p
    · subst h; simp [hp]; ring
    · simp [hne a h, h, Ne.symm h]

lemma eventsFor_credItems (env : Env) (q p : String) (hk : hasKey env p = true) :
    eventsFor p (credItems env q) = [] := by
  by_cases h : q = p
  · subst h; rw [credItems_ok env q hk]; rfl
  · rw [eventsFor, List.filter_eq_nil_iff]
    intro e he
    rcases events_credItems_cases env q e he with rfl | rfl <;>
      simp [eventProvider, h]

lemma eventsFor_streamItems_ne (env : Env) (q p : String) (hne : q ≠ p) :
    eventsFor p (streamItems env q) = [] := by
  rw [eventsFor, List.filter_eq_nil_iff]
  intro e he
  rw [eventProvider_streamItems env q e he]
  simp [hne]

lemma recordsFor_credItems (env : Env) (q p : String) :
    recordsFor p (credItems env q) = [] := by
  unfold credItems
  cases h : env.cred q <;> simp [recordsFor, records]

lemma recordsFor_streamItems_ne (env : Env) (q p : String) (hne : q ≠ p) :
    recordsFor p (streamItems env q) = [] := by
  rw [recordsFor, List.filter_eq_nil_iff]
  intro r hr
  rw [record_provider_streamItems env q r hr]
  simp [hne]

lemma countFor_credItems_ne (env : Env) (q p : String) (b : Event → Bool)
    (hne : q ≠ p) :
    (events (credItems env q)).countP (forProvider p b) = 0 := by
  rw [List.countP_eq_zero]
  intro e he
  rcases events_credItems_cases env q e he with rfl | rfl <;>
    simp [forProvider, eventProvider, hne]

lemma countFor_streamItems_ne (env : Env) (q p : String) (b : Event → Bool)
    (hne : q ≠ p) :
    (events (streamItems env q)).countP (forProvider p b) = 0 := by
  rw [List.countP_eq_zero]
  intro e he
  have htag := eventProvider_streamItems env q e he
  simp [forProvider, htag, hne]

/-- The count of provider-`p` events of class `b` over a whole fan-out trace
reduces to the per-occurrence counts of `p`'s own credential items and
streaming items. -/
lemma countFor_generate_eq (env : Env) (pid : String) (providers : List String)
    (p : String) (b : Event → Bool) (kc ks : Nat)
    (hc : (events (credItems env p)).countP (forProvider p b) = kc)
    (hs : (events (streamItems env p)).countP (forProvider p b) = ks) :
    (events (generate_llm_responses env pid providers)).countP (forProvider p b)
      = providers.count p * kc + providers.count p * ks := by
  rw [generate_llm_responses, events_append, events_append, List.countP_append,
    List.countP_append, credPhase, streamPhase, events_flatMap, events_flatMap,
    countP_flatMap, countP_flatMap,
    sum_map_ite_count providers p kc _ hc
      (fun q hq => countFor_credItems_ne env q p b hq),
    sum_map_ite_count providers p ks _ hs
      (fun q hq => countFor_streamItems_ne env q p b hq)]
  simp [events, List.countP_cons, forProvider, eventProvider]

lemma recordsFor_chunkItems (p q : String) (frags : List String) :
    recordsFor p (chunkItems q frags) = [] := by
  rw [recordsFor, records_chunkItems]
  rfl

lemma recordsFor_streamItems_self_length (env : Env) (p : String) :
    (recordsFor p (streamItems env p)).length
      = if hasKey env p && adapterOk env p then 1 else 0 := by
  by_cases hk : hasKey env p = true
  · rw [streamItems_eq env p hk]
    by_cases hm : p ∈ knownProviders
    · cases hr : env.run p with
      | success frags =>
        rw [process_provider_success env p frags hk hm hr, recordsFor_append,
          recordsFor_chunkItems]
        simp [recordsFor, records, adapterOk, hm, hr, hk]
      | failure frags msg =>
        rw [process_provider_failure env p frags msg hk hm hr, recordsFor_append,
          recordsFor_chunkItems]
        simp [recordsFor, records, adapterOk, hm, hr, hk]
    · rw [process_provider_unknown env p hk hm]
      simp [recordsFor, records, adapterOk, hm, hk]
  · have hk' : hasKey env p = false := by simpa using hk
    rw [streamItems_nokey env p hk']
    simp [recordsFor, records, hk']

lemma recordsFor_generate_length (env : Env) (pid : String)
    (providers : List String) (p : String) :
    (recordsFor p (generate_llm_responses env pid providers)).length
      = providers.count p * (if hasKey env p && adapterOk env p then 1 else 0) := by
  rw [generate_llm_responses, recordsFor_append, recordsFor_append]
  have h1 : recordsFor p (credPhase env providers) = [] := by
    rw [credPhase, recordsFor_flatMap, List.flatMap_eq_nil_iff]
    intro a _
    exact recordsFor_credItems env a p
  have h3 : recordsFor p [Item.ev (Event.streamComplete pid)] = [] := rfl
  rw [h1, h3, streamPhase, recordsFor_flatMap, List.nil_append, List.append_nil,
    List.length_flatMap]
  exact sum_map_ite_count providers p _ _ (recordsFor_streamItems_self_length env p)
    (fun q hq => by
      show (recordsFor p (streamItems env q)).length = 0
      rw [recordsFor_streamItems_ne env q p hq]
      rfl)

/-- C2 as stated is violated: in this environment provider "openai" has a
valid credential (so its adapter stream runs) but the adapter raises before
producing any fragment, and no `LLMResponse` row is committed. -/
def envAdapterFails : Env where
  cred := fun p => if p = "openai" then .ok "k" else .absent
  run := fun _ => .failure [] "connection reset"

/-- C2 counterexample: with `envAdapterFails`, credential resolution for
"openai" succeeds — hence its adapter stream runs — yet the fan-out commits no
`LLMResponse` row at all, refuting "persisted if and only if the adapter
stream ran (i.e. credential resolution succeeded)". -/
theorem c2_counterexample_stream_ran_but_no_record :
    hasKey envAdapterFails "openai" = true
    ∧ records (generate_llm_responses envAdapterFails "p1" ["openai"]) = [] := by
  constructor <;> rfl

/-- C2 amended: an `LLMResponse` row is committed for provider p iff p occurs
in the request list, its credential resolution succeeded, and its adapter
phase raised no error (vacuously so for a name outside the dispatch, which
streams nothing); in particular a provider occurrence skipped for a missing
credential contributes a provider-error event and no row. -/
theorem c2_amended_record_iff_stream_succeeded (env : Env) (pid : String)
    (providers : List String) (p : String) :
    (recordsFor p (generate_llm_responses env pid providers) ≠ [] ↔
      p ∈ providers ∧ hasKey env p = true ∧ adapterOk env p = true)
    ∧ (env.cred p = .absent →
        recordsFor p (generate_llm_responses env pid providers) = []
        ∧ (events (generate_llm_responses env pid providers)).countP
            (forProvider p isProviderError) = providers.count p) := by
  have hlen := recordsFor_generate_length env pid providers p
  constructor
  · constructor
    · intro hne
      have hpos : (recordsFor p (generate_llm_responses env pid providers)).length ≠ 0 := by
        simpa [List.length_eq_zero] using hne
      rw [hlen] at hpos
      by_cases hflag : (hasKey env p && adapterOk env p) = true
      · have hcount : providers.count p ≠ 0 := by
          intro h0
          rw [h0] at hpos
          simp at hpos
        refine ⟨List.count_pos_iff.mp (Nat.pos_of_ne_zero hcount), ?_, ?_⟩
        · exact (Bool.and_eq_true _ _ ▸ hflag).1
        · exact (Bool.and_eq_true _ _ ▸ hflag).2
      · rw [if_neg hflag] at hpos
        simp at hpos
    · rintro ⟨hmem, hk, hok⟩
      intro hnil
      have : (recordsFor p (generate_llm_responses env pid providers)).length = 0 := by
        rw [hnil]; rfl
      rw [hlen, hk, hok] at this
      have hcount : 0 < providers.count p := List.count_pos_iff.mpr hmem
      simp at this
      omega
  · intro habs
    have hk : hasKey env p = false := by simp [hasKey, habs]
    constructor
    · have : (recordsFor p (generate_llm_responses env pid providers)).length = 0 := by
        rw [hlen, hk]
        simp
      exact List.length_eq_zero.mp this
    · have hc : (events (credItems env p)).countP (forProvider p isProviderError) = 1 := by
        simp [credItems, habs, events, List.countP_cons, forProvider, isProviderError,
          eventProvider]
      have hs : (events (streamItems env p)).countP (forProvider p isProviderError) = 0 := by
        rw [streamItems_nokey env p hk]
        rfl
      rw [countFor_generate_eq env pid providers p isProviderError 1 0 hc hs]
      simp

lemma countP_map_chunk_self (p : String) (frags : List String) :
    (frags.map (Event.chunk p)).countP (forProvider p isChunk) = frags.length := by
  induction frags with
  | nil => rfl
  | cons c cs ih =>
    simp [List.countP_cons, forProvider, isChunk, eventProvider, ih]

/-- C9: a provider name occurring several times in the request list, whose
credential resolves and whose adapter streams `frags` successfully, is
processed once per occurrence: a terminal event tagged with it per
occurrence, an `LLMResponse` row per occurrence, and its adapter's fragments
streamed as chunk events per occurrence. -/
theorem c9_duplicate_occurrences_each_processed (env : Env) (pid : String)
    (providers : List String) (p : String) (frags : List String)
    (hm : p ∈ knownProviders) (hk : hasKey env p = true)
    (hr : env.run p = .success frags) :
    (events (generate_llm_responses env pid providers)).countP
        (forProvider p isTerminal) = providers.count p
    ∧ (recordsFor p (generate_llm_responses env pid providers)).length
        = providers.count p
    ∧ (events (generate_llm_responses env pid providers)).countP
        (forProvider p isChunk) = providers.count p * frags.length := by
  have hcred0 : events (credItems env p) = [] := by
    rw [credItems_ok env p hk]
    rfl
  have hshape := process_provider_success env p frags hk hm hr
  have hstream : events (streamItems env p)
      = frags.map (Event.chunk p) ++ [Event.responseComplete p (accumText frags)] := by
    rw [streamItems_eq env p hk, hshape, events_append, events_chunkItems]
    simp [events]
  refine ⟨?_, ?_, ?_⟩
  · rw [countFor_generate_eq env pid providers p isTerminal 0 1 (by rw [hcred0]; rfl) ?_]
    · simp
    · rw [hstream, List.countP_append,
        countP_map_chunk _ _ _ (fun c => by simp [forProvider, isTerminal,
          isRespComplete, isProviderError])]
      simp [List.countP_cons, forProvider, isTerminal, isRespComplete, eventProvider]
  · rw [recordsFor_generate_length env pid providers p, hk]
    have hok : adapterOk env p = true := by simp [adapterOk, hm, hr]
    rw [hok]
    simp
  · rw [countFor_generate_eq env pid providers p isChunk 0 frags.length
      (by rw [hcred0]; rfl) ?_]
    · simp
    · rw [hstream, List.countP_append, countP_map_chunk_self]
      simp [List.countP_cons, forProvider, isChunk]

/-- C10: a provider name outside the three-way dispatch whose credential
nevertheless resolves streams nothing: its tagged events in the whole trace
are exactly one response-complete with empty text per occurrence (no chunk,
no provider-error), and one `LLMResponse` row with empty `response_text` is
committed per occurrence. -/
theorem c10_unknown_provider_empty_completion (env : Env) (pid : String)
    (providers : List String) (p : String)
    (hm : p ∉ knownProviders) (hk : hasKey env p = true) :
    eventsFor p (generate_llm_responses env pid providers)
      = List.replicate (providers.count p) (Event.responseComplete p "")
    ∧ recordsFor p (generate_llm_responses env pid providers)
      = List.replicate (providers.count p) ⟨p, p ++ "-model", ""⟩ := by
  have hshape := process_provider_unknown env p hk hm
  constructor
  · rw [generate_llm_responses, eventsFor_append, eventsFor_append]
    have h1 : eventsFor p (credPhase env providers) = [] := by
      rw [credPhase, eventsFor_flatMap, List.flatMap_eq_nil_iff]
      intro a _
      exact eventsFor_credItems env a p hk
    have h3 : eventsFor p [Item.ev (Event.streamComplete pid)] = [] := rfl
    rw [h1, h3, streamPhase, eventsFor_flatMap, List.nil_append, List.append_nil]
    refine flatMap_single providers p _ _ ?_
      (fun q hq => eventsFor_streamItems_ne env q p hq)
    rw [streamItems_eq env p hk, hshape]
    simp [eventsFor, events, eventProvider]
  · rw [generate_llm_responses, recordsFor_append, recordsFor_append]
    have h1 : recordsFor p (credPhase env providers) = [] := by
      rw [credPhase, recordsFor_flatMap, List.flatMap_eq_nil_iff]
      intro a _
      exact recordsFor_credItems env a p
    have h3 : recordsFor p [Item.ev (Event.streamComplete pid)] = [] := rfl
    rw [h1, h3, streamPhase, recordsFor_flatMap, List.nil_append, List.append_nil]
    refine flatMap_single providers p _ _ ?_
      (fun q hq => recordsFor_streamItems_ne env q p hq)
    rw [streamItems_eq env p hk, hshape]
    simp [recordsFor, records]

/-- The two credential-failure messages differ for every provider name: their
lengths differ by a constant. -/
lemma msgNoKey_ne_msgDecryptFail (p : String) : msgNoKey p ≠ msgDecryptFail p := by
  intro h
  have hlen := congrArg String.length h
  rw [msgNoKey, msgDecryptFail, String.length_append, String.length_append,
    String.length_append] at hlen
  have h1 : ("No API key configured for " : String).length = 26 := rfl
  have h2 : (". Please add it in Settings." : String).length = 28 := rfl
  have h3 : ("Failed to decrypt API key for " : String).length = 30 := rfl
  rw [h1, h2, h3] at hlen
  omega

/-- C6: credential resolution is a synchronous phase that completes before
any streaming: the trace is the credential phase, then the streaming phase,
then the completion event; every credential-phase event is a provider-error
(in particular no chunk event occurs there, so every credential-failure error
precedes every chunk event of every provider); the absent-key and
decrypt-failure messages are distinct for every provider name; and a provider
whose credential is absent has no chunk event anywhere in the trace. -/
theorem c6_resolution_precedes_streaming (env : Env) (pid : String)
    (providers : List String) (p : String) :
    generate_llm_responses env pid providers
      = credPhase env providers ++ streamPhase env providers
        ++ [Item.ev (Event.streamComplete pid)]
    ∧ (∀ e ∈ events (credPhase env providers), isProviderError e = true)
    ∧ msgNoKey p ≠ msgDecryptFail p
    ∧ (env.cred p = .absent →
        (events (generate_llm_responses env pid providers)).countP
          (forProvider p isChunk) = 0) := by
  refine ⟨rfl, ?_, msgNoKey_ne_msgDecryptFail p, ?_⟩
  · intro e he
    rw [credPhase, events_flatMap] at he
    rcases List.mem_flatMap.1 he with ⟨a, _, ha⟩
    rcases events_credItems_cases env a e ha with rfl | rfl <;> rfl
  · intro habs
    have hk : hasKey env p = false := by simp [hasKey, habs]
    have hc : (events (credItems env p)).countP (forProvider p isChunk) = 0 := by
      simp [credItems, habs, events, List.countP_cons, forProvider, isChunk]
    have hs : (events (streamItems env p)).countP (forProvider p isChunk) = 0 := by
      rw [streamItems_nokey env p hk]
      rfl
    rw [countFor_generate_eq env pid providers p isChunk 0 0 hc hs]
    simp

/-- The C3 scenario environment, with the spec's abstract provider A embedded
as "openai" (valid credential, adapter streams ["Hi", " there"]) and B as
"anthropic" (no stored credential). -/
def envScenario : Env where
  cred := fun p => if p = "openai" then .ok "k" else .absent
  run := fun p => if p = "openai" then .success ["Hi", " there"] else .success []

/-- C3 counterexample: the emitted sequence is not the claimed one, because
the "not configured" error for the unconfigured provider is emitted during
the credential-resolution phase, before the streaming provider's events — not
after them. -/
theorem c3_counterexample_error_not_after_chunks :
    events (generate_llm_responses envScenario "p1" ["openai", "anthropic"])
      ≠ [Event.chunk "openai" "Hi", Event.chunk "openai" " there",
         Event.responseComplete "openai" "Hi there",
         Event.providerError "anthropic" (msgNoKey "anthropic"),
         Event.streamComplete "p1"] := by
  decide

/-- C3 amended: for the scenario request, the emitted sequence is exactly:
provider-error(B, "No API key configured for ...") first — credential
resolution completes before any streaming — then A's two chunks in order,
A's response-complete with text "Hi there", and the final stream-complete. -/
theorem c3_amended_actual_sequence :
    events (generate_llm_responses envScenario "p1" ["openai", "anthropic"])
      = [Event.providerError "anthropic" (msgNoKey "anthropic"),
         Event.chunk "openai" "Hi", Event.chunk "openai" " there",
         Event.responseComplete "openai" "Hi there",
         Event.streamComplete "p1"] := by
  rfl

/-! Timed refinement of the success path, for the elapsed-milliseconds claim. -/

/-- Wall-clock view of one provider stream that completes without error, in
milliseconds: `startTime` is the `time.time()` taken at `process_provider`
entry (prompts.py line 107), `frags` pairs each fragment with its arrival
time, `endTime` is the clock value when the adapter finished (line 152). -/
structure TimedRun where
  startTime : Nat
  frags : List (Nat × String)
  endTime : Nat
deriving DecidableEq

/-- An `LLMResponse` row including its `response_time_ms` field
(prompts.py lines 152-160). -/
structure TimedRecord where
  provider : String
  model_used : String
  response_text : String
  response_time_ms : Nat
deriving DecidableEq

/-- A trace item of the timed model. -/
inductive TimedItem where
  | ev (e : Event)
  | persist (r : TimedRecord)
deriving DecidableEq

/-- Timed embedding of the success path of `process_provider` (prompts.py
lines 107-174) for a known provider: chunk events in arrival order, then the
row commit with `response_time_ms = int((time.time() - start_time) * 1000)`
where `start_time` was taken before the streaming loop began, then the done
event with the full text. -/
def process_provider_timed (provider : String) (r : TimedRun) : List TimedItem :=
  r.frags.map (fun tc => TimedItem.ev (Event.chunk provider tc.2))
    ++ [TimedItem.persist ⟨provider, provider ++ "-model",
          accumText (r.frags.map Prod.snd), r.endTime - r.startTime⟩,
        TimedItem.ev (Event.responseComplete provider
          (accumText (r.frags.map Prod.snd)))]

/-- Modelled from the spec: the elapsed value prescribed by the sentence
"compute elapsed milliseconds since first fragment (or since adapter start if
no fragments were produced)", for comparison with the code's computation. -/
def spec_elapsed_ms (r : TimedRun) : Nat :=
  match r.frags with
  | [] => r.endTime - r.startTime
  | (t, _) :: _ => r.endTime - t

/-- The rows committed in a timed trace. -/
def timedRecords (items : List TimedItem) : List TimedRecord :=
  items.filterMap (fun i => match i with | .persist r => some r | .ev _ => none)

/-- The timed run refuting C7: the adapter starts at t = 0 ms, its single
fragment arrives at t = 5 ms, the stream ends at t = 10 ms. -/
def runC7 : TimedRun := ⟨0, [(5, "Hi")], 10⟩

/-- C7 counterexample: on `runC7` the committed row's `response_time_ms` is
10 — measured from adapter start — while the claim's "since the first
fragment" formula yields 5. -/
theorem c7_counterexample_elapsed_not_from_first_fragment :
    timedRecords (process_provider_timed "openai" runC7)
      = [⟨"openai", "openai-model", "Hi", 10⟩]
    ∧ spec_elapsed_ms runC7 = 5
    ∧ (10 : Nat) ≠ 5 := by
  refine ⟨rfl, rfl, by decide⟩

/-- C7 amended: for every provider whose adapter completes without error, the
committed row carries the provider name, the model identifier, the full
concatenated text, and an elapsed-milliseconds value measured since the
adapter started — whether or not fragments were produced — and the commit
precedes the response-complete event in the trace. -/
theorem c7_amended_elapsed_since_adapter_start (p : String) (r : TimedRun) :
    ∃ rec : TimedRecord,
      process_provider_timed p r
        = r.frags.map (fun tc => TimedItem.ev (Event.chunk p tc.2))
          ++ [TimedItem.persist rec,
              TimedItem.ev (Event.responseComplete p rec.response_text)]
      ∧ rec.provider = p
      ∧ rec.model_used = p ++ "-model"
      ∧ rec.response_text = accumText (r.frags.map Prod.snd)
      ∧ rec.response_time_ms = r.endTime - r.startTime :=
  ⟨⟨p, p ++ "-model", accumText (r.frags.map Prod.snd), r.endTime - r.startTime⟩,
    rfl, rfl, rfl, rfl, rfl⟩

/-- C8: a request whose prompt text is missing (`None`) or empty, or whose
provider list is empty, is rejected with HTTP 400 before anything runs: no
`Prompt` row is committed and no stream items — events or records — are
produced, so no adapter is ever invoked. -/
theorem c8_invalid_request_rejected (env : Env) (pid : String)
    (promptText : Option String) (providers : List String)
    (h : promptText = none ∨ promptText = some "" ∨ providers = []) :
    (create_prompt env promptText providers pid).status = 400
    ∧ (create_prompt env promptText providers pid).promptCreated = false
    ∧ (create_prompt env promptText providers pid).items = [] := by
  rcases h with rfl | rfl | rfl
  · exact ⟨rfl, rfl, rfl⟩
  · exact ⟨rfl, rfl, rfl⟩
  · cases promptText with
    | none => exact ⟨rfl, rfl, rfl⟩
    | some t =>
      by_cases ht : t = ""
      · subst ht; exact ⟨rfl, rfl, rfl⟩
      · simp [create_prompt, ht]

/-! Concrete witness environment exercising every branch: a provider with a
valid credential and a successful stream, one whose adapter raises
mid-stream, one whose key fails to decrypt, a name outside the dispatch with
a valid credential, and names with no stored credential. -/

def envW : Env where
  cred := fun p =>
    if p = "openai" then .ok "k1"
    else if p = "google" then .ok "k2"
    else if p = "mistral" then .ok "k3"
    else if p = "anthropic" then .decryptFailed
    else .absent
  run := fun p =>
    if p = "openai" then .success ["Hi", " there"]
    else if p = "google" then .failure ["par"] "rate limited"
    else .success []

/-- Witness for the amended C2: "cohere" has no stored credential in `envW`,
so its fan-out commits no row and emits its one skip error. -/
theorem c2_amended_witness :
    envW.cred "cohere" = .absent
    ∧ recordsFor "cohere" (generate_llm_responses envW "p1" ["cohere"]) = []
    ∧ (events (generate_llm_responses envW "p1" ["cohere"])).countP
        (forProvider "cohere" isProviderError) = 1 := by
  have h := (c2_amended_record_iff_stream_succeeded envW "p1" ["cohere"] "cohere").2 rfl
  exact ⟨rfl, h.1, by rw [h.2]; rfl⟩

/-- Witness for C4 at `envW`: "openai" resolves and streams ["Hi", " there"],
and the evaluated trace shows the concatenated text in both the done event
and the committed row. -/
theorem c4_witness :
    ("openai" ∈ knownProviders ∧ hasKey envW "openai" = true
      ∧ envW.run "openai" = .success ["Hi", " there"])
    ∧ events (process_provider envW "openai")
      = [Event.chunk "openai" "Hi", Event.chunk "openai" " there",
         Event.responseComplete "openai" "Hi there"]
    ∧ records (process_provider envW "openai")
      = [⟨"openai", "openai-model", "Hi there"⟩] := by
  refine ⟨⟨by decide, rfl, rfl⟩, ?_, ?_⟩
  · rw [(c4_success_concatenates_fragments envW "openai" ["Hi", " there"]
      (by decide) rfl rfl).1]
    rfl
  · rw [(c4_success_concatenates_fragments envW "openai" ["Hi", " there"]
      (by decide) rfl rfl).2]
    rfl

/-- Witness for C5 at `envW`: "google" raises after one fragment; its chunk
and single error are emitted, no row is committed, and the provider after it
still contributes its streaming items. -/
theorem c5_witness :
    ("google" ∈ knownProviders ∧ hasKey envW "google" = true
      ∧ envW.run "google" = .failure ["par"] "rate limited")
    ∧ events (process_provider envW "google")
      = [Event.chunk "google" "par", Event.providerError "google" "rate limited"]
    ∧ records (process_provider envW "google") = []
    ∧ generate_llm_responses envW "p1" (["openai"] ++ "google" :: ["anthropic"])
        = credPhase envW (["openai"] ++ "google" :: ["anthropic"])
          ++ (streamPhase envW ["openai"] ++ process_provider envW "google"
              ++ streamPhase envW ["anthropic"])
          ++ [Item.ev (Event.streamComplete "p1")] := by
  have h := c5_failure_is_isolated envW "p1" "google" ["par"] "rate limited"
    ["openai"] ["anthropic"] (by decide) rfl rfl
  exact ⟨⟨by decide, rfl, rfl⟩, by rw [h.1]; rfl, h.2.1, h.2.2⟩

/-- Witness for C6 at `envW`: "cohere" has an absent credential and no chunk
event tagged with it occurs anywhere in a fan-out that also streams
"openai". -/
theorem c6_witness :
    envW.cred "cohere" = .absent
    ∧ (events (generate_llm_responses envW "p1" ["cohere", "openai"])).countP
        (forProvider "cohere" isChunk) = 0 :=
  ⟨rfl, (c6_resolution_precedes_streaming envW "p1" ["cohere", "openai"]
    "cohere").2.2.2 rfl⟩

/-- Witness for C8: the empty prompt text with a non-empty provider list is
rejected with 400, no `Prompt` row, no items. -/
theorem c8_witness :
    (create_prompt envW (some "") ["openai"] "p1").status = 400
    ∧ (create_prompt envW (some "") ["openai"] "p1").promptCreated = false
    ∧ (create_prompt envW (some "") ["openai"] "p1").items = [] :=
  c8_invalid_request_rejected envW "p1" (some "") ["openai"] (Or.inr (Or.inl rfl))

/-- Witness for C9: "openai" requested twice (with another provider between)
yields two terminal events, two rows, and its two fragments streamed twice —
four chunk events. -/
theorem c9_witness :
    (events (generate_llm_responses envW "p1"
        ["openai", "anthropic", "openai"])).countP
      (forProvider "openai" isTerminal) = 2
    ∧ (recordsFor "openai" (generate_llm_responses envW "p1"
        ["openai", "anthropic", "openai"])).length = 2
    ∧ (events (generate_llm_responses envW "p1"
        ["openai", "anthropic", "openai"])).countP
      (forProvider "openai" isChunk) = 4 := by
  have h := c9_duplicate_occurrences_each_processed envW "p1"
    ["openai", "anthropic", "openai"] "openai" ["Hi", " there"] (by decide) rfl rfl
  exact ⟨by rw [h.1]; rfl, by rw [h.2.1]; rfl, by rw [h.2.2]; rfl⟩

/-- Witness for C10: "mistral" is outside the dispatch but has a valid
credential in `envW`; requested twice, its tagged events are exactly two
empty response-completes and its rows two empty-text rows. -/
theorem c10_witness :
    ("mistral" ∉ knownProviders ∧ hasKey envW "mistral" = true)
    ∧ eventsFor "mistral" (generate_llm_responses envW "p1"
        ["mistral", "openai", "mistral"])
      = [Event.responseComplete "mistral" "", Event.responseComplete "mistral" ""]
    ∧ recordsFor "mistral" (generate_llm_responses envW "p1"
        ["mistral", "openai", "mistral"])
      = [⟨"mistral", "mistral-model", ""⟩, ⟨"mistral", "mistral-model", ""⟩] := by
  have h := c10_unknown_provider_empty_completion envW "p1"
    ["mistral", "openai", "mistral"] "mistral" (by decide) rfl
  exact ⟨⟨by decide, rfl⟩, by rw [h.1]; rfl, by rw [h.2]; rfl⟩

end LLMAgg
